import Mathlib

/-!
Verification of the picklist-merger pipeline of `src/main_app.py`
(Formulamanindia/Drench).

The program extracts tables from per-account PDF picklists, concatenates
the tables of each account, renames the headers `Product_Code` → `SKU`,
`Final Qty` → `Qty`, `Order Number` → `Order ID`, validates that `SKU` and
`Qty` are present, coerces `Qty` to a number with unparsable/missing
values replaced by 0, concatenates all account frames, groups by `SKU`
(summing the quantities and joining the deduplicated account names and
order ids with `", "`), and exports the result as UTF-8 CSV.

The shallow embedding below models a pandas cell as either a string value
or a missing value (`NaN`); numeric parsing (`pd.to_numeric` with
`errors='coerce'`) is modelled as integer parsing of the cell's string.
-/

/-- A cell of an extracted table: either a string value or missing (pandas `NaN`). -/
inductive Cell
  | str : String → Cell
  | na : Cell
deriving DecidableEq, Repr

/-- A table extracted from a PDF (a pandas `DataFrame`): an ordered list of
column labels and the data rows, each row listing its cells in column order. -/
structure RawTable where
  headers : List String
  rows : List (List Cell)
deriving DecidableEq, Repr

/-- Deduplication keeping the first occurrence of each element, as
`pandas.Series.unique` does; `seen` accumulates the elements already kept. -/
def pdUniqueAux {α : Type} [DecidableEq α] (seen : List α) : List α → List α
  | [] => []
  | x :: xs => if x ∈ seen then pdUniqueAux seen xs else x :: pdUniqueAux (x :: seen) xs

/-- The distinct elements of a list in first-seen order (`pandas.Series.unique`). -/
def pdUnique {α : Type} [DecidableEq α] (l : List α) : List α := pdUniqueAux [] l

/-- The cell of row `r` of table `t` in the first column labelled `h`;
`Cell.na` when `t` has no such column (pandas `NaN` fill on reindexing). -/
def cellAt (t : RawTable) (h : String) (r : List Cell) : Cell :=
  match t.headers.indexOf? h with
  | some i => r.getD i Cell.na
  | none => Cell.na

/-- Model of `pd.concat(dfs, ignore_index=True)` (src/main_app.py line 53):
the column labels are the union of the tables' labels in first-seen order and
rows of a table lacking one of those columns get `NaN` there. -/
def concatTables (ts : List RawTable) : RawTable :=
  let hs := pdUnique (ts.flatMap (fun t => t.headers))
  { headers := hs
    rows := ts.flatMap (fun t => t.rows.map (fun r => hs.map (fun h => cellAt t h r))) }

/-- Model of `df['Source_Account'] = account_name` (src/main_app.py line 56):
append a constant column. -/
def addSourceAccount (name : String) (t : RawTable) : RawTable :=
  { headers := t.headers ++ ["Source_Account"]
    rows := t.rows.map (fun r => r ++ [Cell.str name]) }

/-- The rename map of src/main_app.py line 62:
`df.rename(columns={'Product_Code': 'SKU', 'Final Qty': 'Qty', 'Order Number': 'Order ID'})`. -/
def renameHeader (h : String) : String :=
  if h = "Product_Code" then "SKU"
  else if h = "Final Qty" then "Qty"
  else if h = "Order Number" then "Order ID"
  else h

/-- Apply the header rename of src/main_app.py line 62 to a table. -/
def renameTable (t : RawTable) : RawTable :=
  { t with headers := t.headers.map renameHeader }

/-- The per-account frame built by `process_uploads` before validation:
concatenation of the account's extracted tables, the `Source_Account`
column, and the header rename (src/main_app.py lines 53-62). -/
def accountFrame (name : String) (dfs : List RawTable) : RawTable :=
  renameTable (addSourceAccount name (concatTables dfs))

/-- Decimal digits to a number; `none` on the empty list or a non-digit. -/
def parseNatDigits : List Char → Option Nat
  | [] => none
  | cs => go cs 0
where
  go : List Char → Nat → Option Nat
    | [], acc => some acc
    | c :: cs, acc =>
      if c.toNat ≥ 48 ∧ c.toNat ≤ 57 then go cs (acc * 10 + (c.toNat - 48))
      else none

/-- Model of `pd.to_numeric(x, errors='coerce')` on one cell
(src/main_app.py line 68), restricted to integer literals: a missing or
unparsable cell becomes `none` (pandas `NaN`), an optionally
minus-signed digit string becomes its integer value. -/
def toNumeric : Cell → Option Int
  | Cell.na => none
  | Cell.str s =>
    match s.data with
    | '-' :: rest => (parseNatDigits rest).map (fun n => -(n : Int))
    | l => (parseNatDigits l).map (fun n => (n : Int))

/-- Model of `pd.to_numeric(df['Qty'], errors='coerce').fillna(0)` on one
cell (src/main_app.py line 68): parse failures and missing values become 0. -/
def cleanQty (c : Cell) : Int := (toNumeric c).getD 0

/-- A row of a validated per-account frame, restricted to the four columns
the aggregation of src/main_app.py lines 120-124 reads. -/
structure CRow where
  sku : Cell
  qty : Int
  orderId : Cell
  account : String
deriving DecidableEq, Repr

/-- Extract the columns the aggregation reads from row `r` of the renamed
frame `t`, with `Qty` already cleaned (src/main_app.py line 68). -/
def makeCRow (name : String) (t : RawTable) (r : List Cell) : CRow :=
  { sku := cellAt t "SKU" r
    qty := cleanQty (cellAt t "Qty" r)
    orderId := cellAt t "Order ID" r
    account := name }

/-- A validated per-account frame: its rows, and whether it carries an
`Order ID` column (needed because the aggregation of src/main_app.py
line 123 raises a `KeyError` when no processed frame has one). -/
structure AccountDF where
  hasOrderId : Bool
  rows : List CRow
deriving DecidableEq, Repr

/-- Model of the per-account body of `process_uploads`
(src/main_app.py lines 31-72): `dfs` is the list of tables tabula
extracted from the account's PDF. An empty extraction is skipped
(line 48-50), otherwise the tables are concatenated, the account column is
added and headers are renamed; the frame is kept only when both `SKU` and
`Qty` are among its columns (line 66), with `Qty` cleaned (line 68). -/
def processAccount (name : String) (dfs : List RawTable) : Option AccountDF :=
  if dfs.isEmpty then none
  else if "SKU" ∈ (accountFrame name dfs).headers ∧ "Qty" ∈ (accountFrame name dfs).headers then
    some { hasOrderId := "Order ID" ∈ (accountFrame name dfs).headers
           rows := (accountFrame name dfs).rows.map (makeCRow name (accountFrame name dfs)) }
  else none

/-- Model of `process_uploads` (src/main_app.py lines 27-81) over the
upload map: each account maps to `none` (no file uploaded, or an
extraction error, both skipped) or to the list of tables extracted from
its PDF; the successfully validated frames are collected in order. -/
def process_uploads (uploads : List (String × Option (List RawTable))) : List AccountDF :=
  uploads.filterMap (fun u => u.2.bind (processAccount u.1))

/-- The concatenation `pd.concat(combined_list, ignore_index=True)` of the
validated frames (src/main_app.py line 116), restricted to the aggregated
columns. -/
def rowsOf (dfs : List AccountDF) : List CRow := dfs.flatMap (fun d => d.rows)

/-- The group key of a row under `groupby('SKU')`: `none` for a missing
`SKU`, which pandas drops from the groups (`dropna=True` default). -/
def skuKey (r : CRow) : Option String :=
  match r.sku with
  | Cell.str s => some s
  | Cell.na => none

/-- The rows of the group with key `k`, in original order (pandas `groupby`
preserves the input order inside each group). -/
def groupRows (rows : List CRow) (k : String) : List CRow :=
  rows.filter (fun r => r.sku = Cell.str k)

/-- Model of `', '.join(...)` (src/main_app.py lines 122-123). -/
def joinComma (l : List String) : String := String.intercalate ", " l

/-- Model of `x.astype(str)` on one cell (src/main_app.py line 123): a
missing value prints as the string `nan`. -/
def cellAstype : Cell → String
  | Cell.na => "nan"
  | Cell.str s => s

/-- One output row of the aggregation (src/main_app.py lines 120-124). -/
structure AggRow where
  sku : String
  total_Quantity : Int
  source_Accounts : String
  orders_Involved : String
deriving DecidableEq, Repr

/-- The aggregate of the group with key `k` (src/main_app.py lines 120-124):
quantity sum, deduplicated account names joined with `", "`, and
deduplicated stringified order ids joined with `", "`. -/
def aggFor (rows : List CRow) (k : String) : AggRow :=
  let g := groupRows rows k
  { sku := k
    total_Quantity := (g.map (fun r => r.qty)).sum
    source_Accounts := joinComma (pdUnique (g.map (fun r => r.account)))
    orders_Involved := joinComma (pdUnique (g.map (fun r => cellAstype r.orderId))) }

/-- Bytewise (code-point) lexicographic order on character lists, the order
pandas uses when sorting string group keys. -/
def charListLe : List Char → List Char → Bool
  | [], _ => true
  | _ :: _, [] => false
  | a :: as, b :: bs =>
    if a.toNat < b.toNat then true
    else if b.toNat < a.toNat then false
    else charListLe as bs

/-- Lexicographic order on strings. -/
def strLe (a b : String) : Bool := charListLe a.data b.data

/-- Insert a string into a `strLe`-sorted list, keeping it sorted. -/
def insertSorted (x : String) : List String → List String
  | [] => [x]
  | y :: ys => if strLe x y then x :: y :: ys else y :: insertSorted x ys

/-- Sort a list of strings ascending by `strLe`: the sorted group keys of
`groupby('SKU')` (`sort=True` default). -/
def sortKeys (l : List String) : List String := l.foldr insertSorted []

/-- Model of `final_picklist` (src/main_app.py lines 120-124): group the
concatenated rows by `SKU` (missing keys dropped, keys sorted ascending) and
aggregate each group; a `KeyError` is raised when no validated frame carries
an `Order ID` column, since line 123 selects that column. -/
def final_picklist (dfs : List AccountDF) : Except String (List AggRow) :=
  if dfs.any (fun d => d.hasOrderId) then
    Except.ok ((sortKeys (pdUnique ((rowsOf dfs).filterMap skuKey))).map (aggFor (rowsOf dfs)))
  else Except.error "KeyError: 'Order ID'"

/-- The quantity sum over the rows of the validated frames carrying the
string key `k`. -/
def totalFor (dfs : List AccountDF) (k : String) : Int :=
  ((groupRows (rowsOf dfs) k).map (fun r => r.qty)).sum

/-- Whether a CSV value needs quoting under `csv.QUOTE_MINIMAL`: it
contains a separator, a quote or a line break. -/
def needsQuote (s : String) : Bool :=
  s.data.any (fun c => c = ',' || c = '"' || c = '\n' || c = '\r')

/-- Double every quote of a value, the CSV escape for quoted fields. -/
def escapeQuotes (s : String) : String :=
  String.mk (s.data.flatMap (fun c => if c = '"' then ['"', '"'] else [c]))

/-- One CSV field under the `csv.QUOTE_MINIMAL` policy of
`DataFrame.to_csv`: quoted, with inner quotes doubled, exactly when the
value contains a separator, a quote or a line break. -/
def csvField (s : String) : String :=
  if needsQuote s then "\"" ++ escapeQuotes s ++ "\"" else s

/-- One CSV record: the fields joined with commas. -/
def csvLine (fs : List String) : String := String.intercalate "," (fs.map csvField)

/-- The four cells of one exported row, in column order
(`reset_index` makes `SKU` the first column). -/
def aggRowFields (r : AggRow) : List String :=
  [r.sku, toString r.total_Quantity, r.source_Accounts, r.orders_Involved]

/-- Model of `final_picklist.to_csv(index=False)` (src/main_app.py
line 130): the header record followed by one record per aggregate row, each
terminated by a line feed. The program then encodes this string as UTF-8. -/
def to_csv (out : List AggRow) : String :=
  csvLine ["SKU", "Total_Quantity", "Source_Accounts", "Orders_Involved"] ++ "\n"
    ++ String.join (out.map (fun r => csvLine (aggRowFields r) ++ "\n"))

/-- The UTF-8 bytes offered for download (src/main_app.py line 130:
`.encode('utf-8')`). -/
def csvBytes (out : List AggRow) : ByteArray := (to_csv out).toUTF8

/-- Model of `add_account` (src/main_app.py lines 155-159): append the new
name to the registry when it is truthy (non-empty) and not already present;
otherwise leave the registry unchanged. -/
def add_account (registry : List String) (newName : String) : List String :=
  if newName ≠ "" ∧ newName ∉ registry then registry ++ [newName] else registry

/-! ### Properties of `pdUnique` (first-seen deduplication) -/

theorem mem_pdUniqueAux {α : Type} [DecidableEq α] (l : List α) (seen : List α) (x : α) :
    x ∈ pdUniqueAux seen l ↔ x ∈ l ∧ x ∉ seen := by
  induction l generalizing seen with
  | nil => simp [pdUniqueAux]
  | cons y ys ih =>
    by_cases hy : y ∈ seen
    · simp only [pdUniqueAux, if_pos hy, ih, List.mem_cons]
      constructor
      · rintro ⟨hx, hs⟩; exact ⟨Or.inr hx, hs⟩
      · rintro ⟨hx | hx, hs⟩
        · exact absurd (hx ▸ hy) hs
        · exact ⟨hx, hs⟩
    · rw [pdUniqueAux, if_neg hy]
      simp only [List.mem_cons, ih, not_or]
      constructor
      · rintro (rfl | ⟨hx, _, hxs⟩)
        · exact ⟨Or.inl rfl, hy⟩
        · exact ⟨Or.inr hx, hxs⟩
      · rintro ⟨hx | hx, hs⟩
        · exact Or.inl hx
        · by_cases hxy : x = y
          · exact Or.inl hxy
          · exact Or.inr ⟨hx, hxy, hs⟩

theorem mem_pdUnique {α : Type} [DecidableEq α] (l : List α) (x : α) :
    x ∈ pdUnique l ↔ x ∈ l := by
  simp [pdUnique, mem_pdUniqueAux]

theorem nodup_pdUniqueAux {α : Type} [DecidableEq α] (l : List α) (seen : List α) :
    (pdUniqueAux seen l).Nodup := by
  induction l generalizing seen with
  | nil => simp [pdUniqueAux]
  | cons y ys ih =>
    by_cases hy : y ∈ seen
    · simpa [pdUniqueAux, if_pos hy] using ih seen
    · rw [pdUniqueAux, if_neg hy, List.nodup_cons]
      refine ⟨fun hmem => ?_, ih _⟩
      exact ((mem_pdUniqueAux _ _ _).mp hmem).2 (List.mem_cons_self _ _)

theorem nodup_pdUnique {α : Type} [DecidableEq α] (l : List α) : (pdUnique l).Nodup :=
  nodup_pdUniqueAux l []

theorem pdUniqueAux_sublist {α : Type} [DecidableEq α] (l : List α) (seen : List α) :
    (pdUniqueAux seen l).Sublist l := by
  induction l generalizing seen with
  | nil => simp [pdUniqueAux]
  | cons y ys ih =>
    by_cases hy : y ∈ seen
    · rw [pdUniqueAux, if_pos hy]; exact (ih seen).cons y
    · rw [pdUniqueAux, if_neg hy]; exact (ih (y :: seen)).cons₂ y

theorem pdUnique_sublist {α : Type} [DecidableEq α] (l : List α) :
    (pdUnique l).Sublist l := pdUniqueAux_sublist l []

/-! ### Properties of the string order and of the insertion sort -/

theorem charListLe_total (as bs : List Char) :
    charListLe as bs = true ∨ charListLe bs as = true := by
  induction as generalizing bs with
  | nil => left; rfl
  | cons a as ih =>
    cases bs with
    | nil => right; rfl
    | cons b bs =>
      by_cases h1 : a.toNat < b.toNat
      · left; simp [charListLe, h1]
      · by_cases h2 : b.toNat < a.toNat
        · right; simp [charListLe, h2]
        · rcases ih bs with h | h
          · left; simp [charListLe, h1, h2, h]
          · right; simp [charListLe, h1, h2, h]

theorem charListLe_trans :
    ∀ {as bs cs : List Char}, charListLe as bs = true → charListLe bs cs = true →
      charListLe as cs = true
  | [], _, _, _, _ => rfl
  | _ :: _, [], _, h1, _ => by simp [charListLe] at h1
  | _ :: _, _ :: _, [], _, h2 => by simp [charListLe] at h2
  | a :: as, b :: bs, c :: cs, h1, h2 => by
    simp only [charListLe] at h1 h2 ⊢
    by_cases hab : a.toNat < b.toNat
    · by_cases hbc : b.toNat < c.toNat
      · rw [if_pos (by omega : a.toNat < c.toNat)]
      · by_cases hcb : c.toNat < b.toNat
        · rw [if_neg hbc, if_pos hcb] at h2
          exact absurd h2 (by simp)
        · rw [if_pos (by omega : a.toNat < c.toNat)]
    · by_cases hba : b.toNat < a.toNat
      · rw [if_neg hab, if_pos hba] at h1
        exact absurd h1 (by simp)
      · rw [if_neg hab, if_neg hba] at h1
        by_cases hbc : b.toNat < c.toNat
        · rw [if_pos (by omega : a.toNat < c.toNat)]
        · by_cases hcb : c.toNat < b.toNat
          · rw [if_neg hbc, if_pos hcb] at h2
            exact absurd h2 (by simp)
          · rw [if_neg hbc, if_neg hcb] at h2
            rw [if_neg (by omega : ¬ a.toNat < c.toNat),
              if_neg (by omega : ¬ c.toNat < a.toNat)]
            exact charListLe_trans h1 h2

theorem strLe_total (a b : String) : strLe a b = true ∨ strLe b a = true :=
  charListLe_total a.data b.data

theorem strLe_trans {a b c : String} (h1 : strLe a b = true) (h2 : strLe b c = true) :
    strLe a c = true := charListLe_trans h1 h2

theorem mem_insertSorted (x : String) (l : List String) (y : String) :
    y ∈ insertSorted x l ↔ y = x ∨ y ∈ l := by
  induction l with
  | nil => simp [insertSorted]
  | cons z zs ih =>
    by_cases h : strLe x z
    · simp [insertSorted, h]
    · simp only [insertSorted, if_neg h, List.mem_cons, ih]
      tauto

theorem perm_insertSorted (x : String) (l : List String) :
    List.Perm (insertSorted x l) (x :: l) := by
  induction l with
  | nil => simp [insertSorted]
  | cons z zs ih =>
    by_cases h : strLe x z
    · simp [insertSorted, h]
    · rw [insertSorted, if_neg h]
      exact (ih.cons z).trans (List.Perm.swap x z zs)

theorem pairwise_insertSorted (x : String) (l : List String)
    (h : List.Pairwise (fun a b => strLe a b = true) l) :
    List.Pairwise (fun a b => strLe a b = true) (insertSorted x l) := by
  induction l with
  | nil => simp [insertSorted]
  | cons z zs ih =>
    cases h with
    | cons hz hzs =>
      by_cases hxz : strLe x z
      · rw [insertSorted, if_pos hxz]
        refine List.Pairwise.cons ?_ (List.Pairwise.cons hz hzs)
        intro b hb
        rcases List.mem_cons.mp hb with rfl | hb
        · exact hxz
        · exact strLe_trans hxz (hz b hb)
      · rw [insertSorted, if_neg hxz]
        refine List.Pairwise.cons ?_ (ih hzs)
        intro b hb
        rcases (mem_insertSorted x zs b).mp hb with heq | hmem
        · rw [heq]
          rcases strLe_total x z with hx | hx
          · exact absurd hx hxz
          · exact hx
        · exact hz b hmem

theorem perm_sortKeys (l : List String) : List.Perm (sortKeys l) l := by
  induction l with
  | nil => rfl
  | cons x xs ih => exact (perm_insertSorted x (sortKeys xs)).trans (ih.cons x)

theorem pairwise_sortKeys (l : List String) :
    List.Pairwise (fun a b => strLe a b = true) (sortKeys l) := by
  induction l with
  | nil => exact List.Pairwise.nil
  | cons x xs ih => exact pairwise_insertSorted x (sortKeys xs) ih

theorem mem_sortKeys (l : List String) (x : String) : x ∈ sortKeys l ↔ x ∈ l :=
  (perm_sortKeys l).mem_iff

/-! ### Bridge lemmas about the pipeline -/

theorem indexOf?_eq_none_of_not_mem {a : String} {l : List String} (h : a ∉ l) :
    List.indexOf? a l = none := by
  rw [List.indexOf?_eq_none_iff]
  intro x hx hxa
  exact h (eq_of_beq hxa ▸ hx)

theorem final_picklist_ok_eq {dfs : List AccountDF} {out : List AggRow}
    (hok : final_picklist dfs = Except.ok out) :
    out = (sortKeys (pdUnique ((rowsOf dfs).filterMap skuKey))).map (aggFor (rowsOf dfs)) := by
  unfold final_picklist at hok
  split at hok
  · injection hok with h
    exact h.symm
  · cases hok

theorem aggFor_sku (rows : List CRow) (k : String) : (aggFor rows k).sku = k := rfl

theorem mem_final_picklist {dfs : List AccountDF} {out : List AggRow}
    (hok : final_picklist dfs = Except.ok out) {row : AggRow} (hrow : row ∈ out) :
    row = aggFor (rowsOf dfs) row.sku := by
  rw [final_picklist_ok_eq hok] at hrow
  rcases List.mem_map.mp hrow with ⟨k, _, rfl⟩
  rfl

theorem skuKey_eq_some (r : CRow) (k : String) :
    skuKey r = some k ↔ r.sku = Cell.str k := by
  cases hr : r.sku <;> simp [skuKey, hr]

theorem totalFor_congr_of_perm {dfs dfs' : List AccountDF}
    (h : List.Perm (rowsOf dfs) (rowsOf dfs')) (k : String) :
    totalFor dfs k = totalFor dfs' k :=
  (((h.filter _).map _).sum_eq : _)

theorem rowsOf_perm_of_uploads_perm
    {uploads uploads' : List (String × Option (List RawTable))}
    (h : List.Perm uploads uploads') :
    List.Perm (rowsOf (process_uploads uploads)) (rowsOf (process_uploads uploads')) :=
  (h.filterMap _).flatMap_right _

/-! ### Claim theorems -/

/-- C1: for every input set of per-account tables, the aggregate row for a
given ProductID has TotalQuantity equal to the arithmetic sum of the
Quantity values of every cleaned canonical row carrying that ProductID, and
the result is unchanged under any permutation of the accounts and of the
rows within an account (any reordering of the concatenated cleaned rows). -/
theorem C1_total_quantity_sum_and_commutative
    (uploads uploads' : List (String × Option (List RawTable))) (dfs₂ : List AccountDF)
    (hperm : List.Perm uploads uploads')
    (hrows : List.Perm (rowsOf (process_uploads uploads)) (rowsOf dfs₂))
    (out : List AggRow) (hok : final_picklist (process_uploads uploads) = Except.ok out)
    (row : AggRow) (hrow : row ∈ out) :
    row.total_Quantity = totalFor (process_uploads uploads) row.sku ∧
    totalFor (process_uploads uploads) row.sku = totalFor (process_uploads uploads') row.sku ∧
    totalFor (process_uploads uploads) row.sku = totalFor dfs₂ row.sku := by
  refine ⟨?_, ?_, ?_⟩
  · rw [mem_final_picklist hok hrow]
    rfl
  · exact totalFor_congr_of_perm (rowsOf_perm_of_uploads_perm hperm) row.sku
  · exact totalFor_congr_of_perm hrows row.sku

/-- The table of account `A` used in the concrete instance of C1. -/
def c1TableA : RawTable :=
  { headers := ["Product_Code", "Final Qty", "Order Number"]
    rows := [[Cell.str "S1", Cell.str "2", Cell.str "O1"],
             [Cell.str "S2", Cell.str "3", Cell.str "O2"]] }

/-- The same table with its rows permuted. -/
def c1TableA' : RawTable :=
  { headers := ["Product_Code", "Final Qty", "Order Number"]
    rows := [[Cell.str "S2", Cell.str "3", Cell.str "O2"],
             [Cell.str "S1", Cell.str "2", Cell.str "O1"]] }

/-- The table of account `B` used in the concrete instance of C1. -/
def c1TableB : RawTable :=
  { headers := ["Product_Code", "Final Qty", "Order Number"]
    rows := [[Cell.str "S1", Cell.str "5", Cell.str "O3"]] }

/-- Witness for C1: accounts `A` ([(S1,2),(S2,3)]) and `B` ([(S1,5)]) give
TotalQuantity 7 for `S1`, and the total is unchanged when the accounts are
swapped or the rows of `A` are reordered. -/
theorem C1_witness :
    (7 : Int) = totalFor (process_uploads [("A", some [c1TableA]), ("B", some [c1TableB])]) "S1" ∧
    totalFor (process_uploads [("A", some [c1TableA]), ("B", some [c1TableB])]) "S1" =
      totalFor (process_uploads [("B", some [c1TableB]), ("A", some [c1TableA])]) "S1" ∧
    totalFor (process_uploads [("A", some [c1TableA]), ("B", some [c1TableB])]) "S1" =
      totalFor (process_uploads [("A", some [c1TableA']), ("B", some [c1TableB])]) "S1" :=
  C1_total_quantity_sum_and_commutative
    [("A", some [c1TableA]), ("B", some [c1TableB])]
    [("B", some [c1TableB]), ("A", some [c1TableA])]
    (process_uploads [("A", some [c1TableA']), ("B", some [c1TableB])])
    (List.Perm.swap _ _ _)
    (by decide)
    [⟨"S1", 7, "A, B", "O1, O3"⟩, ⟨"S2", 3, "A", "O2"⟩]
    rfl
    ⟨"S1", 7, "A, B", "O1, O3"⟩
    (by decide)

/-- C3: if a per-account table's headers provide no match for a required
canonical field (`SKU` or `Qty` after the rename), that account's table is
excluded from aggregation entirely, and the runs with and without that
account produce the same validated frames, so every other account is still
processed identically. -/
theorem C3_missing_required_column_excluded
    (u1 u2 : List (String × Option (List RawTable))) (name : String) (dfs : List RawTable)
    (h : "SKU" ∉ (accountFrame name dfs).headers ∨ "Qty" ∉ (accountFrame name dfs).headers) :
    process_uploads (u1 ++ (name, some dfs) :: u2) = process_uploads (u1 ++ u2) := by
  have hnone : processAccount name dfs = none := by
    unfold processAccount
    split
    · rfl
    · rw [if_neg (by tauto)]
  unfold process_uploads
  rw [List.filterMap_append, List.filterMap_append, List.filterMap_cons]
  simp [hnone]

/-- Witness for C3: a table whose headers have no `Qty` match is dropped
while account `A`'s table is still processed. -/
theorem C3_witness :
    process_uploads
      [("A", some [⟨["Product_Code", "Final Qty"], [[Cell.str "S1", Cell.str "2"]]⟩]),
       ("Bad", some [⟨["Product_Code", "Weight"], [[Cell.str "S9", Cell.str "11"]]⟩])] =
    process_uploads
      [("A", some [⟨["Product_Code", "Final Qty"], [[Cell.str "S1", Cell.str "2"]]⟩])] :=
  C3_missing_required_column_excluded
    [("A", some [⟨["Product_Code", "Final Qty"], [[Cell.str "S1", Cell.str "2"]]⟩])]
    [] "Bad" [⟨["Product_Code", "Weight"], [[Cell.str "S9", Cell.str "11"]]⟩]
    (Or.inr (by decide))

/-- C4: for every row of a validated (normalized) table, an unparsable or
missing Quantity value is replaced by 0; no row is dropped by the cleaning
(the cleaned frame has exactly one row per source row, in order), and the
cleaning is a total function, so it cannot fail. -/
theorem C4_unparsable_qty_becomes_zero
    (name : String) (dfs : List RawTable) (adf : AccountDF)
    (h : processAccount name dfs = some adf) :
    adf.rows = (accountFrame name dfs).rows.map (makeCRow name (accountFrame name dfs)) ∧
    adf.rows.length = (accountFrame name dfs).rows.length ∧
    ∀ r ∈ (accountFrame name dfs).rows,
      toNumeric (cellAt (accountFrame name dfs) "Qty" r) = none →
        (makeCRow name (accountFrame name dfs) r).qty = 0 := by
  unfold processAccount at h
  split at h
  · cases h
  · split at h
    · injection h with h
      subst h
      refine ⟨rfl, by simp, ?_⟩
      intro r _ hr
      simp [makeCRow, cleanQty, hr]
    · cases h

/-- Witness for C4: a frame with quantities `"x"` (unparsable) and missing
keeps both rows and zeroes both quantities. -/
theorem C4_witness :
    (AccountDF.mk true
        [⟨Cell.str "S1", 0, Cell.str "O1", "A"⟩, ⟨Cell.str "S2", 0, Cell.na, "A"⟩]).rows =
      (accountFrame "A" [⟨["Product_Code", "Final Qty", "Order Number"],
          [[Cell.str "S1", Cell.str "x", Cell.str "O1"], [Cell.str "S2"]]⟩]).rows.map
        (makeCRow "A" (accountFrame "A" [⟨["Product_Code", "Final Qty", "Order Number"],
          [[Cell.str "S1", Cell.str "x", Cell.str "O1"], [Cell.str "S2"]]⟩])) ∧
    (AccountDF.mk true
        [⟨Cell.str "S1", 0, Cell.str "O1", "A"⟩, ⟨Cell.str "S2", 0, Cell.na, "A"⟩]).rows.length =
      (accountFrame "A" [⟨["Product_Code", "Final Qty", "Order Number"],
          [[Cell.str "S1", Cell.str "x", Cell.str "O1"], [Cell.str "S2"]]⟩]).rows.length ∧
    ∀ r ∈ (accountFrame "A" [⟨["Product_Code", "Final Qty", "Order Number"],
          [[Cell.str "S1", Cell.str "x", Cell.str "O1"], [Cell.str "S2"]]⟩]).rows,
      toNumeric (cellAt (accountFrame "A" [⟨["Product_Code", "Final Qty", "Order Number"],
          [[Cell.str "S1", Cell.str "x", Cell.str "O1"], [Cell.str "S2"]]⟩]) "Qty" r) = none →
        (makeCRow "A" (accountFrame "A" [⟨["Product_Code", "Final Qty", "Order Number"],
          [[Cell.str "S1", Cell.str "x", Cell.str "O1"], [Cell.str "S2"]]⟩]) r).qty = 0 :=
  C4_unparsable_qty_becomes_zero "A"
    [⟨["Product_Code", "Final Qty", "Order Number"],
      [[Cell.str "S1", Cell.str "x", Cell.str "O1"], [Cell.str "S2"]]⟩]
    (AccountDF.mk true
      [⟨Cell.str "S1", 0, Cell.str "O1", "A"⟩, ⟨Cell.str "S2", 0, Cell.na, "A"⟩])
    rfl

/-- C8: the aggregate rows are emitted sorted in ascending ProductID
(lexicographic code-point) order. -/
theorem C8_output_sorted_ascending
    (dfs : List AccountDF) (out : List AggRow)
    (hok : final_picklist dfs = Except.ok out) :
    List.Pairwise (fun a b : AggRow => strLe a.sku b.sku = true) out := by
  rw [final_picklist_ok_eq hok, List.pairwise_map]
  exact (pairwise_sortKeys _).imp (fun h => h)

/-- Witness for C8: a run whose keys arrive as `S2`, `S1` is emitted with
`S1` before `S2`. -/
theorem C8_witness :
    List.Pairwise (fun a b : AggRow => strLe a.sku b.sku = true)
      [⟨"S1", 5, "A", "O3"⟩, ⟨"S2", 3, "A", "O2"⟩] :=
  C8_output_sorted_ascending
    (process_uploads [("A", some [⟨["Product_Code", "Final Qty", "Order Number"],
      [[Cell.str "S2", Cell.str "3", Cell.str "O2"], [Cell.str "S1", Cell.str "5", Cell.str "O3"]]⟩])])
    [⟨"S1", 5, "A", "O3"⟩, ⟨"S2", 3, "A", "O2"⟩]
    rfl

/-- C10: the account-registry add operation appends a name exactly when it
is non-empty and not already present; adding an existing or empty name
leaves the registry unchanged, and the operation preserves the invariant
that the registry has no duplicate and no empty names. -/
theorem C10_add_account_spec (registry : List String) (newName : String) :
    ((newName = "" ∨ newName ∈ registry) → add_account registry newName = registry) ∧
    (newName ≠ "" → newName ∉ registry → add_account registry newName = registry ++ [newName]) ∧
    ((∀ a ∈ registry, a ≠ "") → registry.Nodup →
      (∀ a ∈ add_account registry newName, a ≠ "") ∧ (add_account registry newName).Nodup) := by
  refine ⟨?_, ?_, ?_⟩
  · intro h
    unfold add_account
    rw [if_neg (by tauto)]
  · intro h1 h2
    unfold add_account
    rw [if_pos ⟨h1, h2⟩]
  · intro hne hnd
    unfold add_account
    split
    · rename_i hcond
      constructor
      · intro a ha
        rcases List.mem_append.mp ha with ha | ha
        · exact hne a ha
        · rw [List.mem_singleton.mp ha]
          exact hcond.1
      · rw [List.nodup_append]
        exact ⟨hnd, List.nodup_singleton _, by simpa using hcond.2⟩
    · exact ⟨hne, hnd⟩

/-- Witness for C10: adding a fresh name appends it; re-adding it or adding
the empty string leaves the registry unchanged. -/
theorem C10_witness :
    add_account ["Drench"] "Sparsh" = ["Drench", "Sparsh"] ∧
    add_account ["Drench"] "Drench" = ["Drench"] ∧
    add_account ["Drench"] "" = ["Drench"] :=
  ⟨(C10_add_account_spec ["Drench"] "Sparsh").2.1 (by decide) (by decide),
   (C10_add_account_spec ["Drench"] "Drench").1 (Or.inr (by decide)),
   (C10_add_account_spec ["Drench"] "").1 (Or.inl rfl)⟩

/-- The validated frames of the run used for C2: under ProductID `A` the
order ids are blank, then `O1`. -/
def c2Frame : List AccountDF :=
  process_uploads [("Acct1", some [⟨["Product_Code", "Final Qty", "Order Number"],
    [[Cell.str "A", Cell.str "2", Cell.str ""], [Cell.str "A", Cell.str "3", Cell.str "O1"]]⟩])]

/-- C2 counterexample: with order ids blank and `O1` under ProductID `A`,
the code renders `Orders_Involved` as `", O1"` — the blank order id
contributes a spurious empty entry to the joined display string, contrary
to the claim that blank values never contribute an entry. -/
theorem C2_counterexample :
    final_picklist c2Frame = Except.ok [⟨"A", 5, "Acct1", ", O1"⟩] ∧
    (", O1" : String) ≠ "O1" :=
  ⟨rfl, by decide⟩

/-- C2 (amended): for every aggregate row, `Orders_Involved` is the
`", "`-join of the stringified OrderID values of its group (missing values
render as `"nan"`), deduplicated in first-seen order — the deduplicated
list has no duplicates, is a sublist of the group's value sequence and has
exactly its members — but blank order ids are included as empty entries
rather than excluded. -/
theorem C2_orders_joined_dedup_first_seen
    (dfs : List AccountDF) (out : List AggRow)
    (hok : final_picklist dfs = Except.ok out)
    (row : AggRow) (hrow : row ∈ out) :
    row.orders_Involved =
      joinComma (pdUnique ((groupRows (rowsOf dfs) row.sku).map (fun r => cellAstype r.orderId))) ∧
    (pdUnique ((groupRows (rowsOf dfs) row.sku).map (fun r => cellAstype r.orderId))).Nodup ∧
    (pdUnique ((groupRows (rowsOf dfs) row.sku).map (fun r => cellAstype r.orderId))).Sublist
      ((groupRows (rowsOf dfs) row.sku).map (fun r => cellAstype r.orderId)) ∧
    ∀ s, s ∈ pdUnique ((groupRows (rowsOf dfs) row.sku).map (fun r => cellAstype r.orderId)) ↔
      s ∈ (groupRows (rowsOf dfs) row.sku).map (fun r => cellAstype r.orderId) := by
  refine ⟨?_, nodup_pdUnique _, pdUnique_sublist _, fun s => mem_pdUnique _ s⟩
  have h := mem_final_picklist hok hrow
  conv_lhs => rw [h]
  rfl

/-- Witness for C2: in the C2 run, the duplicate-free first-seen join of the
stringified order ids of group `A` is exactly what the code emitted. -/
theorem C2_witness :
    (AggRow.mk "A" 5 "Acct1" ", O1").orders_Involved =
      joinComma (pdUnique ((groupRows (rowsOf c2Frame) "A").map (fun r => cellAstype r.orderId))) :=
  (C2_orders_joined_dedup_first_seen c2Frame [⟨"A", 5, "Acct1", ", O1"⟩] rfl
    ⟨"A", 5, "Acct1", ", O1"⟩ (by decide)).1

/-- The validated frames of the run used for C5: one row with the empty
string as ProductID, one with `B`. -/
def c5Frame : List AccountDF :=
  process_uploads [("Acct1", some [⟨["Product_Code", "Final Qty", "Order Number"],
    [[Cell.str "", Cell.str "2", Cell.str "O1"], [Cell.str "B", Cell.str "3", Cell.str "O2"]]⟩])]

/-- C5 counterexample: a row whose ProductID is the empty string is not
dropped by any cleaning stage: it produces an aggregate row with
ProductID `""` carrying its quantity, contrary to the claim. -/
theorem C5_counterexample :
    final_picklist c5Frame =
      Except.ok [⟨"", 2, "Acct1", "O1"⟩, ⟨"B", 3, "Acct1", "O2"⟩] := rfl

/-- C5 (amended): only rows whose ProductID is missing (`NaN`) contribute
to no aggregate row — and they are dropped by the grouping, not by a
cleaning stage; rows whose ProductID is the empty string are kept and
grouped under ProductID `""`: an aggregate row with key `k` exists exactly
when some cleaned row carries the string `k` (possibly empty). -/
theorem C5_missing_sku_dropped_empty_kept
    (dfs : List AccountDF) (out : List AggRow)
    (hok : final_picklist dfs = Except.ok out) (k : String) :
    (∃ row ∈ out, row.sku = k) ↔ ∃ r ∈ rowsOf dfs, r.sku = Cell.str k := by
  rw [final_picklist_ok_eq hok]
  constructor
  · rintro ⟨row, hrow, hsku⟩
    rcases List.mem_map.mp hrow with ⟨k', hk', rfl⟩
    rw [aggFor_sku] at hsku
    subst hsku
    rw [mem_sortKeys, mem_pdUnique] at hk'
    rcases List.mem_filterMap.mp hk' with ⟨r, hr, hrk⟩
    exact ⟨r, hr, (skuKey_eq_some r _).mp hrk⟩
  · rintro ⟨r, hr, hrk⟩
    have hks : k ∈ sortKeys (pdUnique ((rowsOf dfs).filterMap skuKey)) := by
      rw [mem_sortKeys, mem_pdUnique]
      exact List.mem_filterMap.mpr ⟨r, hr, (skuKey_eq_some r k).mpr hrk⟩
    exact ⟨aggFor (rowsOf dfs) k, List.mem_map_of_mem _ hks, aggFor_sku _ _⟩

/-- Witness for C5: in the C5 run an aggregate row with the empty-string
ProductID exists exactly because a cleaned row carries the empty string. -/
theorem C5_witness :
    (∃ row ∈ [(⟨"", 2, "Acct1", "O1"⟩ : AggRow), ⟨"B", 3, "Acct1", "O2"⟩], row.sku = "") ↔
      ∃ r ∈ rowsOf c5Frame, r.sku = Cell.str "" :=
  C5_missing_sku_dropped_empty_kept c5Frame
    [⟨"", 2, "Acct1", "O1"⟩, ⟨"B", 3, "Acct1", "O2"⟩] rfl ""

/-- The validated frames of the run used for C6: one source quantity is
`-3`. -/
def c6Frame : List AccountDF :=
  process_uploads [("Acct1", some [⟨["Product_Code", "Final Qty", "Order Number"],
    [[Cell.str "A", Cell.str "-3", Cell.str "O1"]]⟩])]

/-- C6 counterexample: a source quantity `-3` survives cleaning as `-3`, so
a canonical row's Quantity and the aggregate TotalQuantity are negative,
contrary to the claim that they are always non-negative integers. -/
theorem C6_counterexample :
    final_picklist c6Frame = Except.ok [⟨"A", -3, "Acct1", "O1"⟩] ∧ (-3 : Int) < 0 :=
  ⟨rfl, by decide⟩

/-- C6 (amended): every cleaned Quantity is an integer and a missing or
unparsable quantity becomes 0, and every aggregate TotalQuantity is
non-negative provided every cleaned row quantity is non-negative — which
the code does not enforce: a negative source value passes through. -/
theorem C6_totals_nonneg_of_nonneg_quantities
    (dfs : List AccountDF) (out : List AggRow)
    (hok : final_picklist dfs = Except.ok out)
    (hpos : ∀ adf ∈ dfs, ∀ r ∈ adf.rows, 0 ≤ r.qty) :
    (∀ row ∈ out, 0 ≤ row.total_Quantity) ∧
    ∀ c : Cell, toNumeric c = none → cleanQty c = 0 := by
  constructor
  · intro row hrow
    rw [mem_final_picklist hok hrow]
    show 0 ≤ ((groupRows (rowsOf dfs) row.sku).map (fun r => r.qty)).sum
    apply List.sum_nonneg
    intro q hq
    rcases List.mem_map.mp hq with ⟨r, hr, rfl⟩
    have hr' : r ∈ rowsOf dfs := List.mem_of_mem_filter hr
    rcases List.mem_flatMap.mp hr' with ⟨adf, hadf, hradf⟩
    exact hpos adf hadf r hradf
  · intro c hc
    simp [cleanQty, hc]

/-- Witness for C6: a run whose only quantity is 2 has a non-negative
total. -/
theorem C6_witness :
    (0 : Int) ≤ (AggRow.mk "A" 2 "Acct1" "O1").total_Quantity :=
  (C6_totals_nonneg_of_nonneg_quantities
      (process_uploads [("Acct1", some [⟨["Product_Code", "Final Qty", "Order Number"],
        [[Cell.str "A", Cell.str "2", Cell.str "O1"]]⟩])])
      [⟨"A", 2, "Acct1", "O1"⟩] rfl (by decide)).1
    ⟨"A", 2, "Acct1", "O1"⟩ (by decide)

/-- The extracted tables of the account used for C7: no OrderID-synonym
header. -/
def c7Tables : List RawTable :=
  [⟨["Product_Code", "Final Qty"], [[Cell.str "A", Cell.str "2"]]⟩]

/-- C7 counterexample: an account whose table has no OrderID-synonym header
passes validation, but the merge run then fails at aggregation with a
`KeyError`, because no processed frame carries an `Order ID` column — the
run fails instead of completing with empty OrderIDs. -/
theorem C7_counterexample :
    final_picklist (process_uploads [("Acct1", some c7Tables)]) =
      Except.error "KeyError: 'Order ID'" := rfl

/-- C7 (amended): a table with no OrderID-synonym header is not rejected by
validation — only `SKU` and `Qty` are required, the frame is processed
and every row's OrderID is missing (`NaN`), which renders as `"nan"`, not
as empty — but when no processed frame has an `Order ID` column the
aggregation fails with a `KeyError` instead of completing. -/
theorem C7_no_orderid_column_processed_but_agg_raises
    (name : String) (dfs : List RawTable)
    (hne : dfs ≠ [])
    (hsku : "SKU" ∈ (accountFrame name dfs).headers)
    (hqty : "Qty" ∈ (accountFrame name dfs).headers)
    (hord : "Order ID" ∉ (accountFrame name dfs).headers) :
    processAccount name dfs =
      some ⟨false, (accountFrame name dfs).rows.map (makeCRow name (accountFrame name dfs))⟩ ∧
    (∀ r, (makeCRow name (accountFrame name dfs) r).orderId = Cell.na) ∧
    (∀ r, cellAstype (makeCRow name (accountFrame name dfs) r).orderId = "nan") ∧
    ∀ adfs : List AccountDF, (∀ d ∈ adfs, d.hasOrderId = false) →
      final_picklist adfs = Except.error "KeyError: 'Order ID'" := by
  have hne' : ¬ (dfs.isEmpty = true) := by
    cases dfs
    · exact absurd rfl hne
    · simp
  have hoid : ∀ r, cellAt (accountFrame name dfs) "Order ID" r = Cell.na := by
    intro r
    unfold cellAt
    rw [indexOf?_eq_none_of_not_mem hord]
  refine ⟨?_, ?_, ?_, ?_⟩
  · unfold processAccount
    rw [if_neg hne', if_pos ⟨hsku, hqty⟩, decide_eq_false hord]
  · intro r
    simp [makeCRow, hoid r]
  · intro r
    simp [makeCRow, hoid r, cellAstype]
  · intro adfs hall
    have hany : adfs.any (fun d => d.hasOrderId) = false := by
      rw [List.any_eq_false]
      intro d hd
      simp [hall d hd]
    unfold final_picklist
    rw [if_neg (by simp [hany])]

/-- Witness for C7: the account of `c7Tables` is processed (not rejected)
even though it has no `Order ID` column. -/
theorem C7_witness :
    processAccount "Acct1" c7Tables =
      some ⟨false, (accountFrame "Acct1" c7Tables).rows.map
        (makeCRow "Acct1" (accountFrame "Acct1" c7Tables))⟩ :=
  (C7_no_orderid_column_processed_but_agg_raises "Acct1" c7Tables
    (by decide) (by decide) (by decide) (by decide)).1

/-- C9 counterexample: the CSV header names the first column `SKU`, not
`ProductID`, as the claim requires; the rest of the record layout and the
minimal quoting of a multi-value field are shown on a concrete row. -/
theorem C9_counterexample :
    to_csv [⟨"S1", 7, "A, B", "O1, O3"⟩] =
      "SKU,Total_Quantity,Source_Accounts,Orders_Involved\nS1,7,\"A, B\",\"O1, O3\"\n" ∧
    ("SKU,Total_Quantity,Source_Accounts,Orders_Involved" : String) ≠
      "ProductID,Total_Quantity,Source_Accounts,Orders_Involved" :=
  ⟨rfl, by decide⟩

/-- C9 (amended): the export is the UTF-8 encoding of a comma-separated
text beginning with the header row
`SKU,Total_Quantity,Source_Accounts,Orders_Involved` — the first column is
named `SKU`, not `ProductID` — and every multi-value field is joined with
`", "`: `Source_Accounts` is the `", "`-join of the group's deduplicated
(first-seen, duplicate-free) account names. -/
theorem C9_csv_header_and_multivalue_join
    (dfs : List AccountDF) (out : List AggRow)
    (hok : final_picklist dfs = Except.ok out) :
    (∃ rest, to_csv out = "SKU,Total_Quantity,Source_Accounts,Orders_Involved\n" ++ rest) ∧
    csvBytes out = (to_csv out).toUTF8 ∧
    ∀ row ∈ out,
      row.source_Accounts =
        joinComma (pdUnique ((groupRows (rowsOf dfs) row.sku).map (fun r => r.account))) ∧
      (pdUnique ((groupRows (rowsOf dfs) row.sku).map (fun r => r.account))).Nodup := by
  refine ⟨⟨String.join (out.map (fun r => csvLine (aggRowFields r) ++ "\n")), rfl⟩, rfl, ?_⟩
  intro row hrow
  refine ⟨?_, nodup_pdUnique _⟩
  have h := mem_final_picklist hok hrow
  conv_lhs => rw [h]
  rfl

/-- The validated frames of the run used for C9's witness: two accounts
contribute to `S1`. -/
def c9Frame : List AccountDF :=
  process_uploads
    [("A", some [⟨["Product_Code", "Final Qty", "Order Number"],
        [[Cell.str "S1", Cell.str "2", Cell.str "O1"]]⟩]),
     ("B", some [⟨["Product_Code", "Final Qty", "Order Number"],
        [[Cell.str "S1", Cell.str "5", Cell.str "O3"]]⟩])]

/-- Witness for C9: the export of the C9 run begins with the `SKU,...`
header row. -/
theorem C9_witness :
    ∃ rest, to_csv [⟨"S1", 7, "A, B", "O1, O3"⟩] =
      "SKU,Total_Quantity,Source_Accounts,Orders_Involved\n" ++ rest :=
  (C9_csv_header_and_multivalue_join c9Frame [⟨"S1", 7, "A, B", "O1, O3"⟩] rfl).1
